import Mathlib

/-!
Verification of the `dir2txt` tool (src/dir2txt.py) against its specification.

The Python source is shallowly embedded: every function of the source that the
claims touch is translated into a computable Lean definition over an explicit
model of the parts of the filesystem the program observes.  Exceptions are
modelled with `Except`: a Python function that may raise becomes a Lean
function into `Except PyError α` (respectively `Except String α` where only
the exception's message matters), and `try/except` becomes a `match` on that
result.  String primitives are re-implemented structurally over `List Char`
so that every definition reduces by `decide`/`rfl` on concrete inputs.
-/

namespace Dir2Txt

/-! ## String primitives (structural re-implementations)

Python's `str` operations used by the source, implemented over `String.data`
so that they compute by kernel reduction. -/

/-- ASCII whitespace, the characters Python's `str.strip()` removes (the
source never feeds it non-ASCII whitespace in the claims considered). -/
def isPySpace (c : Char) : Bool :=
  c = ' ' || c = '\t' || c = '\n' || c = '\r' || c = '\x0b' || c = '\x0c'

/-- Python `str.strip()`: remove leading and trailing whitespace. -/
def pyStrip (s : String) : String :=
  String.mk (((s.data.dropWhile isPySpace).reverse.dropWhile isPySpace).reverse)

/-- Python `str.strip("/")`: remove leading and trailing `/` characters. -/
def stripSlashes (s : String) : String :=
  String.mk (((s.data.dropWhile (· = '/')).reverse.dropWhile (· = '/')).reverse)

/-- `startsWithChars n h`: the list `n` is an initial segment of `h`. -/
def startsWithChars : List Char → List Char → Bool
  | [], _ => true
  | _ :: _, [] => false
  | a :: as, b :: bs => a = b && startsWithChars as bs

/-- Python's `needle in hay` substring test, over character lists. -/
def containsSub (needle : List Char) : List Char → Bool
  | [] => startsWithChars needle []
  | b :: bs => startsWithChars needle (b :: bs) || containsSub needle bs

/-- Python `needle in hay` on strings. -/
def pyIn (needle hay : String) : Bool :=
  containsSub needle.data hay.data

/-- Python `str.endswith(suffix)`. -/
def pyEndsWith (s suffixStr : String) : Bool :=
  startsWithChars suffixStr.data.reverse s.data.reverse

/-- Split a character list at every occurrence of `c` (Python `str.split(c)`
semantics: the empty list yields one empty field). -/
def splitOnChar (c : Char) : List Char → List (List Char)
  | [] => [[]]
  | a :: as =>
    let r := splitOnChar c as
    if a = c then [] :: r
    else
      match r with
      | [] => [[a]]
      | g :: gs => (a :: g) :: gs

/-- Python `path.split("/")` on a string. -/
def splitSlash (s : String) : List String :=
  (splitOnChar '/' s.data).map String.mk

/-- The lines produced by iterating over an open Python text file whose full
content is `s` (each yielded line keeps its terminator in Python; we record
the line *without* the terminator, which is all the source ever keeps after
`strip()`): a trailing newline does not produce a final empty line. -/
def pySplitLines (s : String) : List String :=
  if s = "" then []
  else
    let parts := (splitOnChar '\n' s.data).map String.mk
    if parts.getLast? = some "" then parts.dropLast else parts

/-- UTF-8 byte size of a string (what `os.path.getsize` reports for a file
whose bytes are the UTF-8 encoding of `s`). -/
def byteSize (s : String) : Nat :=
  s.data.foldl (fun n c => n + c.utf8Size) 0

/-! ## Filesystem model -/

/-- A Python exception class relevant to the source. -/
inductive PyError where
  | unicodeDecodeError
  | fileNotFound
  | permissionError
  deriving DecidableEq, Repr

/-- The message `str(e)` of an exception, as interpolated by the source. -/
def PyError.msg : PyError → String
  | .unicodeDecodeError => "UnicodeDecodeError"
  | .fileNotFound => "FileNotFoundError"
  | .permissionError => "PermissionError"

/-- The text-reading view of one file on disk.  `lines` are the decoded lines
(terminators removed); `badTail = true` means the file's bytes stop being
decodable right after those lines, so reading past them raises
`UnicodeDecodeError`.  `size` is the on-disk byte size reported by
`os.path.getsize`. -/
structure FSFile where
  present : Bool
  readable : Bool
  size : Nat
  lines : List String
  badTail : Bool
  deriving DecidableEq, Repr

/-- The full decoded content, as `file.read()` returns it when decoding
succeeds. -/
def fileContent (f : FSFile) : String :=
  String.intercalate "\n" f.lines

/-- Opening a file with `open(path, "r")`: missing file and permission
failures raise here, before any read. -/
def openCheck (f : FSFile) : Except PyError Unit :=
  if f.present = false then .error .fileNotFound
  else if f.readable = false then .error .permissionError
  else .ok ()

/-! ## Configuration

The three module-level constants of the source.  `MAX_LINES_FOR_LARGE_FILE`
is an untyped Python value compared with `== 0`, `isinstance(int)` and
`is None`; the inductive mirrors those three tests (with `pyOther` for any
value that is neither an int nor `None`). -/

inductive MaxLinesPolicy where
  | pyInt (n : Int)
  | pyNone
  | pyOther
  deriving DecidableEq, Repr

structure Config where
  readCompressedFiles : Bool
  largeSizeFile : Nat
  maxLinesForLargeFile : MaxLinesPolicy
  deriving DecidableEq, Repr

/-- The constants as set in the source: `READ_COMPRESSED_FILES = True`,
`LARGE_SIZE_FILE = 10`, `MAX_LINES_FOR_LARGE_FILE = 1000`. -/
def defaultConfig : Config :=
  { readCompressedFiles := true, largeSizeFile := 10,
    maxLinesForLargeFile := .pyInt 1000 }

/-! ## `file_is_large` and `read_file` (source lines 139-185) -/

/-- `file_is_large(file_path, threshold_mb)`: `os.path.exists` then a strict
`>` comparison of the byte size against `threshold_mb * 1024 * 1024`. -/
def file_is_large (f : FSFile) (threshold_mb : Nat) : Bool :=
  f.present && decide (f.size > threshold_mb * 1024 * 1024)

/-- The inner `read_line_by_line` of `read_file`: iterate over the file,
`strip()` each line, join with newlines.  Iteration reaches the end of the
file, so undecodable bytes anywhere (`badTail`) raise. -/
def read_line_by_line (f : FSFile) : Except PyError String :=
  match openCheck f with
  | .error e => .error e
  | .ok _ =>
    if f.badTail then .error .unicodeDecodeError
    else .ok (String.intercalate "\n" (f.lines.map pyStrip))

/-- The inner `read_all` of `read_file`: `file.read()`. -/
def read_all (f : FSFile) : Except PyError String :=
  match openCheck f with
  | .error e => .error e
  | .ok _ =>
    if f.badTail then .error .unicodeDecodeError
    else .ok (fileContent f)

/-- The inner `read_n_lines_from_file` of `read_file`: `readline()` up to `n`
times (stopping early at end of file), `strip()` each line, then append the
footer.  The undecodable tail is only reached — and only raises — when the
file has fewer than `n` decodable lines. -/
def read_n_lines_from_file (f : FSFile) (n : Nat) : Except PyError String :=
  match openCheck f with
  | .error e => .error e
  | .ok _ =>
    if f.badTail && decide (f.lines.length < n) then .error .unicodeDecodeError
    else
      .ok (String.intercalate "\n" ((f.lines.take n).map pyStrip) ++
        "\n...\nThere are only " ++ toString n ++ " lines of the file.")

/-- The placeholder returned for a large file when no line-count policy is
configured. -/
def skippedMsg (cfg : Config) : String :=
  "The file was skipped. The file was larger than " ++ toString cfg.largeSizeFile ++
    "MB and it was not specified how many lines to read from it."

/-- `read_file(file_path, line_by_line)` (source lines 147-185).  The
large-file branch dispatches on `MAX_LINES_FOR_LARGE_FILE` and is *not*
wrapped in any `try`; only the final non-large read is guarded by
`except UnicodeDecodeError`, which returns the sentinel `"Not a text file"`. -/
def read_file (cfg : Config) (f : FSFile) (line_by_line : Bool) :
    Except PyError String :=
  if file_is_large f cfg.largeSizeFile then
    match cfg.maxLinesForLargeFile with
    | .pyInt n =>
      if n = 0 then .ok "The file could not be read.\n"
      else if 0 < n then read_n_lines_from_file f n.toNat
      else .ok (skippedMsg cfg)
    | .pyNone => read_line_by_line f
    | .pyOther => .ok (skippedMsg cfg)
  else
    match (if line_by_line then read_line_by_line f else read_all f) with
    | .error .unicodeDecodeError => .ok "Not a text file"
    | r => r

/-! ## `paths_as_tree` (source lines 103-136)

The source builds a nested `dict` (insertion-ordered mapping from segment
name to child mapping) via `setdefault`, then renders it depth-first,
sorting the items of each level by key at entry and counting directories
(non-empty child mapping) and files (empty child mapping).

The `dict` is modelled as an association list with unique keys in insertion
order (`insertPath` mirrors `setdefault`: update in place if present, append
otherwise).  The renderer is written with an explicit recursion-depth
argument `fuel` so it is structurally recursive (hence reducible by `rfl`):
`paths_as_tree` instantiates `fuel` with a bound strictly larger than the
depth of the tree (one plus the sum of all paths' segment counts, while the
depth is at most the maximum segment count), so the fuel is never exhausted
on the tree actually rendered. -/

inductive PathTree where
  | node (children : List (String × PathTree))

def PathTree.children : PathTree → List (String × PathTree)
  | .node cs => cs

/-- Replace the subtree stored under the (unique) key `p`. -/
def replaceChild (cs : List (String × PathTree)) (p : String) (t : PathTree) :
    List (String × PathTree) :=
  cs.map (fun c => if c.1 = p then (c.1, t) else c)

/-- Insert one split path into the tree: `current = current.setdefault(part, {})`
iterated over the parts, with the nested-`dict` mutation made explicit. -/
def insertPath : PathTree → List String → PathTree
  | t, [] => t
  | .node cs, p :: rest =>
    match List.lookup p cs with
    | some sub => .node (replaceChild cs p (insertPath sub rest))
    | none => .node (cs ++ [(p, insertPath (.node []) rest)])

/-- `path.strip("/").split("/")`. -/
def splitParts (path : String) : List String :=
  splitSlash (stripSlashes path)

/-- The `tree` dict after the insertion loop of `paths_as_tree`. -/
def buildTree (paths : List String) : PathTree :=
  paths.foldl (fun t path => insertPath t (splitParts path)) (.node [])

/-- Python's `<` on strings: lexicographic comparison of the code points. -/
def ltChars : List Char → List Char → Bool
  | _, [] => false
  | [], _ :: _ => true
  | a :: as, b :: bs =>
    if a < b then true
    else if b < a then false
    else ltChars as bs

/-- Python `a < b` on `str`. -/
def pyLt (a b : String) : Bool :=
  ltChars a.data b.data

/-- Insertion step of sorting one level's items by key, ascending (the keys
of one level are distinct, so this yields the same order as Python's
`sorted(d.items(), key=...)`). -/
def insertByName (x : String × PathTree) :
    List (String × PathTree) → List (String × PathTree)
  | [] => [x]
  | y :: ys => if pyLt y.1 x.1 then y :: insertByName x ys else x :: y :: ys

/-- `sorted(d.items(), key=lambda kv: kv[0])` for one level. -/
def sortByName (cs : List (String × PathTree)) : List (String × PathTree) :=
  cs.foldr insertByName []

/-- One level of `_print_tree` over already-sorted items: emit each item's
line (corner connector for the last item, tee otherwise; a `/` suffix and a
directory count for items with children, a file count otherwise), then the
recursion `recur` on the item's children, sorted.  `recur` is the renderer
for the next depth. -/
def renderItems
    (recur : String → List (String × PathTree) → List String × Nat × Nat) :
    String → List (String × PathTree) → List String × Nat × Nat
  | _, [] => ([], 0, 0)
  | pref, (name, sub) :: rest =>
    let isLast := rest.isEmpty
    let connector := if isLast then "└── " else "├── "
    let is_dir := !sub.children.isEmpty
    let line := pref ++ connector ++ name ++ (if is_dir then "/" else "")
    let extender := if isLast then "    " else "│   "
    let s := recur (pref ++ extender) (sortByName sub.children)
    let r := renderItems recur pref rest
    (line :: (s.1 ++ r.1),
     (if is_dir then 1 else 0) + s.2.1 + r.2.1,
     (if is_dir then 0 else 1) + s.2.2 + r.2.2)

/-- `_print_tree`, with the recursion depth made explicit. -/
def renderLevel : Nat → String → List (String × PathTree) → List String × Nat × Nat
  | 0, _, _ => ([], 0, 0)
  | fuel + 1, pref, items => renderItems (renderLevel fuel) pref items

/-- `paths_as_tree(paths)` (source lines 103-136). -/
def paths_as_tree (paths : List String) : String :=
  let tree := buildTree paths
  let fuel := 1 + (paths.map (fun p => (splitParts p).length)).foldr (· + ·) 0
  let res := renderLevel fuel "" (sortByName tree.children)
  String.intercalate "\n"
    ((". Files that were selected:\n|" :: res.1) ++
      ["\n" ++ toString res.2.1 ++ " directories, " ++ toString res.2.2 ++ " files"])

/-! ## Archives: `inspect_archive` and `read_archive` (source lines 26-92)

A path fed to the archive functions is modelled as a `PFile`: its path
string, its text-reading view (`fs`), the results of the two content sniffs
(`zipfile.is_zipfile` / `tarfile.is_tarfile`), and the outcome of opening it
with the three openers.  Each fallible operation carries the exception
message it would raise with. -/

/-- One zip entry: `z.open(name)` + `read()` + `decode(errors="ignore")`
(the decode never raises; `extract` is `.error` when opening or reading the
member raises). -/
structure ZipEntry where
  name : String
  extract : Except String String

/-- One tar member.  `extract = none` models `tfile.extractfile(member)`
returning `None`; `some (.error msg)` models `f.read()` raising. -/
structure TarMember where
  name : String
  isFile : Bool
  extract : Option (Except String String)

/-- A path as seen by the archive code.  `zipEntries` is the result of
`zipfile.ZipFile(path)` + `namelist()` (`.error` when opening the archive
raises); `tarMembers` likewise for `tarfile.open` + `getmembers()`;
`streamContent` is `gzip/bz2/lzma.open(path, "rt", errors="ignore").read()`. -/
structure PFile where
  path : String
  fs : FSFile
  isZip : Bool
  isTar : Bool
  zipEntries : Except String (List ZipEntry)
  tarMembers : Except String (List TarMember)
  streamContent : Except String String

/-- A temporary file made by `tempfile.NamedTemporaryFile("w+", delete=False)`.
`deleteFlag` records the `delete=` argument (the source always passes
`False`); `unlinked` records whether the program ever removed the file (the
source has no removal call, so it is always `false`). -/
structure TempFile where
  content : String
  deleteFlag : Bool
  unlinked : Bool
  deriving DecidableEq, Repr

/-- Creation of a temp file as the source does it: `delete=False`, and the
source never unlinks it afterwards. -/
def mkTempFile (content : String) : TempFile :=
  { content := content, deleteFlag := false, unlinked := false }

/-- The filesystem view of a fresh temp file holding the text `content`:
it exists, is readable, decodes cleanly, and its on-disk size is the UTF-8
byte count of `content`. -/
def tempFS (content : String) : FSFile :=
  { present := true, readable := true, size := byteSize content,
    lines := pySplitLines content, badTail := false }

/-- `inspect_archive(path)` (source lines 26-38): zip and tar by content
sniffing, gz/bz2/xz by filename suffix, `None` otherwise.  The source
returns `{"type": t}`; only the tag string matters. -/
def inspect_archive (f : PFile) : Option String :=
  if f.isZip then some "zip"
  else if f.isTar then some "tar"
  else if pyEndsWith f.path ".gz" then some "gz"
  else if pyEndsWith f.path ".bz2" then some "bz2"
  else if pyEndsWith f.path ".xz" then some "xz"
  else none

/-- The header part `f"## Archive content of {path} ({t})"`. -/
def archiveHeader (path t : String) : String :=
  "## Archive content of " ++ path ++ " (" ++ t ++ ")"

/-- The part `f"[Error reading archive: {e}]"` appended by the outer
`except`. -/
def archiveErrorLine (msg : String) : String :=
  "[Error reading archive: " ++ msg ++ "]"

/-- The part `f"\n## {path} → {name}\n{body}\n"` emitted for a successfully
rendered archive member. -/
def memberPart (path name body : String) : String :=
  "\n## " ++ path ++ " → " ++ name ++ "\n" ++ body ++ "\n"

/-- The part `f"\n## {path} → {name}\n[Unreadable file]\n"` emitted for a
zip entry whose processing raised. -/
def unreadablePart (path name : String) : String :=
  "\n## " ++ path ++ " → " ++ name ++ "\n[Unreadable file]\n"

/-- Processing of one zip entry inside its own `try`: on success, write the
decoded content to a temp file and render it through `read_file`; on any
exception (member extraction, or — unreachably for a fresh temp file —
`read_file` itself), emit the `[Unreadable file]` marker.  Returns the text
part and the temp files created. -/
def zipEntryPart (cfg : Config) (path : String) (e : ZipEntry) :
    String × List TempFile :=
  match e.extract with
  | .ok content =>
    match read_file cfg (tempFS content) false with
    | .ok body => (memberPart path e.name body, [mkTempFile content])
    | .error _ => (unreadablePart path e.name, [mkTempFile content])
  | .error _ => (unreadablePart path e.name, [])

/-- The tar loop of `read_archive`.  There is no per-member `try`: the first
member whose extraction raises aborts the loop, and the parts emitted so far
survive to be joined with the top-level error line.  Returns the emitted
parts, the temp files created, and the message of the raised exception, if
any. -/
def tarRun (cfg : Config) (path : String) :
    List TarMember → List String × List TempFile × Option String
  | [] => ([], [], none)
  | m :: rest =>
    if m.isFile then
      match m.extract with
      | none => tarRun cfg path rest
      | some (.error msg) => ([], [], some msg)
      | some (.ok content) =>
        match read_file cfg (tempFS content) false with
        | .ok body =>
          let r := tarRun cfg path rest
          (memberPart path m.name body :: r.1,
            mkTempFile content :: r.2.1, r.2.2)
        | .error e => ([], [mkTempFile content], some e.msg)
    else tarRun cfg path rest

/-- `read_archive(path)` (source lines 41-92), returning the rendered text
and the temp files created along the way.  `text_parts` starts with the
header; the outer `try` catches any exception from the branch taken and
appends `[Error reading archive: <message>]`; the parts are joined with
newlines. -/
def read_archive (cfg : Config) (f : PFile) : String × List TempFile :=
  match inspect_archive f with
  | none => ("## Unsupported archive format\n", [])
  | some t =>
    let header := archiveHeader f.path t
    if t = "zip" then
      match f.zipEntries with
      | .error msg =>
        (String.intercalate "\n" [header, archiveErrorLine msg], [])
      | .ok entries =>
        let parts := entries.map (zipEntryPart cfg f.path)
        (String.intercalate "\n" (header :: parts.map Prod.fst),
          (parts.map Prod.snd).foldr (· ++ ·) [])
    else if t = "tar" then
      match f.tarMembers with
      | .error msg =>
        (String.intercalate "\n" [header, archiveErrorLine msg], [])
      | .ok members =>
        let r := tarRun cfg f.path members
        match r.2.2 with
        | none => (String.intercalate "\n" (header :: r.1), r.2.1)
        | some msg =>
          (String.intercalate "\n" ((header :: r.1) ++ [archiveErrorLine msg]),
            r.2.1)
    else
      match f.streamContent with
      | .error msg =>
        (String.intercalate "\n" [header, archiveErrorLine msg], [])
      | .ok content =>
        match read_file cfg (tempFS content) false with
        | .ok body =>
          (String.intercalate "\n"
            [header, "\n## " ++ f.path ++ " (decompressed)\n" ++ body ++ "\n"],
            [mkTempFile content])
        | .error e =>
          (String.intercalate "\n" [header, archiveErrorLine e.msg],
            [mkTempFile content])

/-! ## `make_text_from_files` (source lines 188-214) and `ignores_apply`
(source lines 217-218) -/

/-- The content block the assembler emits for one file: `read_file`, then —
only when the returned string equals the sentinel `"Not a text file"` — the
archive fallback (archive rendering when classified and enabled, a skip
marker when disabled, a literal sentinel block when unclassified).
Exceptions from `read_file` propagate. -/
def file_block (cfg : Config) (f : PFile) : Except PyError String :=
  match read_file cfg f.fs false with
  | .error e => .error e
  | .ok content_raw =>
    let file_content :=
      if content_raw = "Not a text file" then
        match inspect_archive f with
        | some _ =>
          if cfg.readCompressedFiles then
            "\n```\n" ++ (read_archive cfg f).1 ++ "\n```\n"
          else "`Archive skipped`\n"
        | none => "\n```\nNot a text file\n```\n"
      else "\n```\n" ++ content_raw ++ "\n```\n"
    .ok (f.path ++ "\n" ++ file_content ++ "---\n\n")

/-- The assembler loop over the files, in order; the first exception aborts
the run just as in the source. -/
def file_blocks (cfg : Config) : List PFile → Except PyError (List String)
  | [] => .ok []
  | f :: fs =>
    match file_block cfg f with
    | .error e => .error e
    | .ok b =>
      match file_blocks cfg fs with
      | .error e => .error e
      | .ok bs => .ok (b :: bs)

/-- The trailing `Description` section; appended only when the argument is a
truthy string (`if description:`). -/
def descriptionPart : Option String → String
  | none => ""
  | some d => if d = "" then "" else "Description\n\n" ++ d ++ "\n"

/-- Concatenation of the per-file blocks, in order (the `text +=` loop). -/
def joinStr : List String → String
  | [] => ""
  | s :: ss => s ++ joinStr ss

/-- `make_text_from_files(files, description)` (source lines 188-214). -/
def make_text_from_files (cfg : Config) (files : List PFile)
    (description : Option String) : Except PyError String :=
  match file_blocks cfg files with
  | .error e => .error e
  | .ok blocks =>
    .ok ("Project structure\n\n" ++ paths_as_tree (files.map PFile.path) ++
      "\n\n---\n\n" ++ joinStr blocks ++ descriptionPart description)

/-- `ignores_apply(ignores, targets)` (source lines 217-218): keep the
targets containing none of the ignore substrings. -/
def ignores_apply (ignores targets : List String) : List String :=
  targets.filter (fun t => !(ignores.any (fun ex => pyIn ex t)))

/-- The temp files still on disk after processing: created with
`delete=False` and never unlinked by the program. -/
def leftoverTemps (ts : List TempFile) : List TempFile :=
  ts.filter (fun t => !t.deleteFlag && !t.unlinked)

/-! ## Concrete inputs used by the witnesses and counterexamples -/

/-- A small, fully decodable text file. -/
def exFsPlain : FSFile :=
  { present := true, readable := true, size := 6, lines := ["hello"],
    badTail := false }

/-- A 12 MB file whose very first bytes are not decodable text: reading it
as text raises `UnicodeDecodeError` immediately. -/
def exFsBigBad : FSFile :=
  { present := true, readable := true, size := 12582912, lines := [],
    badTail := true }

/-- A small file with one line carrying leading and trailing whitespace. -/
def exFsIndent : FSFile :=
  { present := true, readable := true, size := 7, lines := ["  x "],
    badTail := false }

/-- A 20 MB decodable text file of three lines with stray whitespace. -/
def exFsLargeText : FSFile :=
  { present := true, readable := true, size := 20971520,
    lines := ["a ", " b", "c"], badTail := false }

/-- A file of exactly 10 MB. -/
def exFsTenMB : FSFile :=
  { present := true, readable := true, size := 10485760, lines := [],
    badTail := false }

/-- A file of 10 MB plus one byte. -/
def exFsTenMBPlus : FSFile :=
  { present := true, readable := true, size := 10485761, lines := [],
    badTail := false }

/-- A genuine text file whose whole decoded content is exactly the sentinel
string `"Not a text file"`. -/
def exFsSentinel : FSFile :=
  { present := true, readable := true, size := 15,
    lines := ["Not a text file"], badTail := false }

/-- A small undecodable (binary) file, as a corrupt archive looks to
`read_file`. -/
def exFsBinary : FSFile :=
  { present := true, readable := true, size := 100, lines := [],
    badTail := true }

/-- A tar archive whose first member extracts fine, whose second member
fails to extract, and whose third would extract fine. -/
def exTarBad : PFile :=
  { path := "x.tar", fs := exFsBinary, isZip := false, isTar := true,
    zipEntries := .error "", streamContent := .error "",
    tarMembers := .ok
      [{ name := "m1", isFile := true, extract := some (.ok "hello") },
       { name := "m2", isFile := true, extract := some (.error "boom") },
       { name := "m3", isFile := true, extract := some (.ok "world") }] }

/-- A 12 MB file the process has no permission to open. -/
def exFsBigNoRead : FSFile :=
  { present := true, readable := false, size := 12582912, lines := [],
    badTail := false }

/-- A zip archive with one unreadable entry followed by one readable one. -/
def exZipMixed : PFile :=
  { path := "a.zip", fs := exFsBinary, isZip := true, isTar := false,
    tarMembers := .error "", streamContent := .error "",
    zipEntries := .ok
      [{ name := "e1", extract := .error "bad CRC" },
       { name := "e2", extract := .ok "hi" }] }

/-- A zip archive with a single readable entry. -/
def exZipGood : PFile :=
  { path := "b.zip", fs := exFsBinary, isZip := true, isTar := false,
    tarMembers := .error "", streamContent := .error "",
    zipEntries := .ok [{ name := "e1", extract := .ok "hi" }] }

/-- A corrupt zip: a valid signature (so `is_zipfile` says yes) but opening
it raises. -/
def exZipCorrupt : PFile :=
  { path := "c.zip", fs := exFsBinary, isZip := true, isTar := false,
    tarMembers := .error "", streamContent := .error "",
    zipEntries := .error "Bad zip file" }

/-- An ordinary text file wrapped as a `PFile` for the assembler. -/
def exPfPlain : PFile :=
  { path := "a.txt", fs := exFsPlain, isZip := false, isTar := false,
    zipEntries := .error "", tarMembers := .error "",
    streamContent := .error "" }

/-- A genuine text file named `note.gz` whose content is exactly the
sentinel string: `read_file` hands the assembler `"Not a text file"`, and
the suffix check then classifies the file as a gz archive. -/
def exPfSentinelGz : PFile :=
  { path := "note.gz", fs := exFsSentinel, isZip := false, isTar := false,
    zipEntries := .error "", tarMembers := .error "",
    streamContent := .error "not a gzip stream" }

/-- A genuine text file (no archive suffix) whose content is exactly the
sentinel string. -/
def exPfSentinelTxt : PFile :=
  { path := "note.txt", fs := exFsSentinel, isZip := false, isTar := false,
    zipEntries := .error "", tarMembers := .error "",
    streamContent := .error "" }

/-- The default configuration with the max-lines policy replaced by `0`. -/
def cfgZero : Config :=
  { readCompressedFiles := true, largeSizeFile := 10,
    maxLinesForLargeFile := .pyInt 0 }

/-- The default configuration with the max-lines policy replaced by `2`. -/
def cfgTwo : Config :=
  { readCompressedFiles := true, largeSizeFile := 10,
    maxLinesForLargeFile := .pyInt 2 }

/-- The default configuration with the max-lines policy replaced by `None`. -/
def cfgNone : Config :=
  { readCompressedFiles := true, largeSizeFile := 10,
    maxLinesForLargeFile := .pyNone }

/-! ## Helper lemmas -/

theorem startsWithChars_iff (n h : List Char) :
    startsWithChars n h = true ↔ ∃ t, h = n ++ t := by
  induction n generalizing h with
  | nil => simp [startsWithChars]
  | cons a as ih =>
    cases h with
    | nil => simp [startsWithChars]
    | cons b bs =>
      simp only [startsWithChars, Bool.and_eq_true, decide_eq_true_eq, ih,
        List.cons_append, List.cons.injEq]
      constructor
      · rintro ⟨hab, t, ht⟩
        exact ⟨t, hab.symm, ht⟩
      · rintro ⟨t, hba, ht⟩
        exact ⟨hba.symm, t, ht⟩

theorem containsSub_iff (n h : List Char) :
    containsSub n h = true ↔ ∃ p t, h = p ++ n ++ t := by
  induction h with
  | nil =>
    simp only [containsSub, startsWithChars_iff]
    constructor
    · rintro ⟨t, ht⟩
      exact ⟨[], t, by simpa using ht⟩
    · rintro ⟨p, t, hpt⟩
      rcases List.append_eq_nil.mp (List.append_eq_nil.mp hpt.symm).1 with ⟨-, hn⟩
      exact ⟨t, by simp [hn, (List.append_eq_nil.mp hpt.symm).2]⟩
  | cons b bs ih =>
    simp only [containsSub, Bool.or_eq_true, startsWithChars_iff, ih]
    constructor
    · rintro (⟨t, ht⟩ | ⟨p, t, hpt⟩)
      · exact ⟨[], t, by simp [ht]⟩
      · exact ⟨b :: p, t, by simp [hpt]⟩
    · rintro ⟨p, t, hpt⟩
      cases p with
      | nil => exact Or.inl ⟨t, by simpa using hpt⟩
      | cons c cp =>
        rcases List.cons.injEq .. ▸ hpt with ⟨-, hbs⟩
        exact Or.inr ⟨cp, t, by simpa using hbs⟩

theorem ltChars_asymm (a : List Char) :
    ∀ b, ltChars a b = true → ltChars b a = false := by
  induction a with
  | nil =>
    intro b hb
    cases b with
    | nil => simp [ltChars] at hb
    | cons c cs => simp [ltChars]
  | cons x xs ih =>
    intro b hb
    cases b with
    | nil => simp [ltChars] at hb
    | cons y ys =>
      simp only [ltChars] at hb ⊢
      by_cases hxy : x < y
      · simp [hxy, asymm hxy]
      · by_cases hyx : y < x
        · simp [hxy, hyx] at hb
        · simp only [hxy, hyx, if_false] at hb ⊢
          exact ih ys hb

theorem pyLt_asymm (a b : String) (h : pyLt a b = true) : pyLt b a = false :=
  ltChars_asymm a.data b.data h

theorem insertByName_perm (x : String × PathTree)
    (l : List (String × PathTree)) : List.Perm (insertByName x l) (x :: l) := by
  induction l with
  | nil => rfl
  | cons y ys ih =>
    unfold insertByName
    by_cases hlt : pyLt y.1 x.1 = true
    · rw [if_pos hlt]
      exact (ih.cons y).trans (List.Perm.swap x y ys)
    · rw [if_neg hlt]

theorem sortByName_perm (cs : List (String × PathTree)) :
    List.Perm (sortByName cs) cs := by
  induction cs with
  | nil => rfl
  | cons c cs ih =>
    exact (insertByName_perm c (sortByName cs)).trans (ih.cons c)

theorem insertByName_chain (x : String × PathTree)
    (l : List (String × PathTree))
    (h : List.Chain' (fun u v : String × PathTree => pyLt v.1 u.1 = false) l) :
    List.Chain' (fun u v : String × PathTree => pyLt v.1 u.1 = false)
      (insertByName x l) := by
  induction l with
  | nil => simp [insertByName]
  | cons y ys ih =>
    unfold insertByName
    by_cases hlt : pyLt y.1 x.1 = true
    · rw [if_pos hlt]
      have hys := ih h.tail
      refine List.Chain'.cons' hys ?_
      intro z hz
      cases ys with
      | nil =>
        simp [insertByName] at hz
        simpa [hz] using pyLt_asymm _ _ hlt
      | cons w ws =>
        unfold insertByName at hz
        by_cases hw : pyLt w.1 x.1 = true
        · rw [if_pos hw] at hz
          simp only [List.head?_cons, Option.mem_def, Option.some.injEq] at hz
          have := List.chain'_cons.mp h
          simpa [← hz] using this.1
        · rw [if_neg hw] at hz
          simp only [List.head?_cons, Option.mem_def, Option.some.injEq] at hz
          simpa [← hz] using pyLt_asymm _ _ hlt
    · rw [if_neg hlt]
      refine List.chain'_cons.mpr ⟨?_, h⟩
      exact Bool.eq_false_iff.mpr hlt

theorem sortByName_chain (cs : List (String × PathTree)) :
    List.Chain' (fun u v : String × PathTree => pyLt v.1 u.1 = false)
      (sortByName cs) := by
  induction cs with
  | nil => simp [sortByName]
  | cons c cs ih => exact insertByName_chain c (sortByName cs) ih

theorem mem_foldr_append {α β : Type} (g : β → List α) (l : List β) (t : α) :
    t ∈ (l.map g).foldr (· ++ ·) [] ↔ ∃ x ∈ l, t ∈ g x := by
  induction l with
  | nil => simp
  | cons b bs ih => simp [ih]

theorem zipEntryPart_temps (cfg : Config) (path : String) (e : ZipEntry) :
    ∀ t ∈ (zipEntryPart cfg path e).2, t.deleteFlag = false ∧
      t.unlinked = false := by
  intro t ht
  unfold zipEntryPart at ht
  split at ht
  · split at ht <;> (simp at ht; simp [ht, mkTempFile])
  · simp at ht

theorem tarRun_temps (cfg : Config) (path : String) :
    ∀ (ms : List TarMember), ∀ t ∈ (tarRun cfg path ms).2.1,
      t.deleteFlag = false ∧ t.unlinked = false := by
  intro ms
  induction ms with
  | nil => simp [tarRun]
  | cons m rest ih =>
    intro t ht
    unfold tarRun at ht
    by_cases hf : m.isFile = true
    · rw [if_pos hf] at ht
      split at ht
      · exact ih t ht
      · simp at ht
      · split at ht
        · simp only [List.mem_cons] at ht
          rcases ht with ht | ht
          · simp [ht, mkTempFile]
          · exact ih t ht
        · simp at ht
          simp [ht, mkTempFile]
    · rw [if_neg hf] at ht
      exact ih t ht

theorem tarRun_append (cfg : Config) (path : String) :
    ∀ (pre rest : List TarMember),
      (tarRun cfg path pre).2.2 = none →
      tarRun cfg path (pre ++ rest) =
        ((tarRun cfg path pre).1 ++ (tarRun cfg path rest).1,
          (tarRun cfg path pre).2.1 ++ (tarRun cfg path rest).2.1,
          (tarRun cfg path rest).2.2) := by
  intro pre
  induction pre with
  | nil => intro rest h; simp [tarRun]
  | cons m pre' ih =>
    intro rest h
    by_cases hf : m.isFile = true
    · cases hex : m.extract with
      | none =>
        have hstep : ∀ ms, tarRun cfg path (m :: ms) = tarRun cfg path ms := by
          intro ms; simp [tarRun, hf, hex]
        rw [hstep pre'] at h
        rw [List.cons_append, hstep (pre' ++ rest), hstep pre']
        exact ih rest h
      | some r =>
        cases r with
        | error msg =>
          have hbad : (tarRun cfg path (m :: pre')).2.2 = some msg := by
            simp [tarRun, hf, hex]
          rw [h] at hbad
          exact absurd hbad (by simp)
        | ok content =>
          cases hr : read_file cfg (tempFS content) false with
          | ok body =>
            have hstep : ∀ ms, tarRun cfg path (m :: ms) =
                (memberPart path m.name body :: (tarRun cfg path ms).1,
                  mkTempFile content :: (tarRun cfg path ms).2.1,
                  (tarRun cfg path ms).2.2) := by
              intro ms; simp [tarRun, hf, hex, hr]
            rw [hstep pre'] at h
            rw [List.cons_append, hstep (pre' ++ rest), hstep pre']
            rw [ih rest h]
            simp
          | error er =>
            have hbad : (tarRun cfg path (m :: pre')).2.2 = some er.msg := by
              simp [tarRun, hf, hex, hr]
            rw [h] at hbad
            exact absurd hbad (by simp)
    · have hstep : ∀ ms, tarRun cfg path (m :: ms) = tarRun cfg path ms := by
        intro ms; simp [tarRun, hf]
      rw [hstep pre'] at h
      rw [List.cons_append, hstep (pre' ++ rest), hstep pre']
      exact ih rest h

theorem file_blocks_decomp (cfg : Config) :
    ∀ (files : List PFile) (blocks : List String),
      file_blocks cfg files = .ok blocks →
      ∀ f ∈ files, ∃ b pre post, file_block cfg f = .ok b ∧
        joinStr blocks = pre ++ b ++ post := by
  intro files
  induction files with
  | nil => simp
  | cons g gs ih =>
    intro blocks h f hf
    unfold file_blocks at h
    cases hb : file_block cfg g with
    | error e => rw [hb] at h; exact absurd h (by simp)
    | ok b0 =>
      rw [hb] at h
      cases hbs : file_blocks cfg gs with
      | error e => rw [hbs] at h; exact absurd h (by simp)
      | ok bs =>
        rw [hbs] at h
        simp only [Except.ok.injEq] at h
        subst h
        rcases List.mem_cons.mp hf with hf | hf
        · subst hf
          exact ⟨b0, "", joinStr bs, hb, by simp [joinStr]⟩
        · rcases ih bs hbs f hf with ⟨b, pre, post, hfb, hj⟩
          refine ⟨b, b0 ++ pre, post, hfb, ?_⟩
          show b0 ++ joinStr bs = b0 ++ pre ++ b ++ post
          rw [hj]
          simp [String.append_assoc]

/-! ## Claim theorems -/

/-- C4: the large-file test compares the byte size strictly against
`threshold_mb * 1024 * 1024`: a file of exactly the threshold is never
large, a present file one byte over is large, and in general the test
succeeds exactly for a present file strictly over the threshold. -/
theorem C4_strict_threshold :
    ∀ (f : FSFile) (mb : Nat),
      (f.size = mb * 1024 * 1024 → file_is_large f mb = false)
      ∧ (f.present = true → f.size = mb * 1024 * 1024 + 1 →
          file_is_large f mb = true)
      ∧ (file_is_large f mb = true ↔
          f.present = true ∧ mb * 1024 * 1024 < f.size) := by
  intro f mb
  refine ⟨fun h => ?_, fun hp h => ?_, ?_⟩
  · simp [file_is_large, h]
  · simp [file_is_large, hp, h]
  · simp [file_is_large]

/-- C4 witness: with the source threshold of 10 MB, a 10485760-byte file is
not large and a 10485761-byte file is. -/
theorem C4_strict_threshold_witness :
    file_is_large exFsTenMB 10 = false
    ∧ file_is_large exFsTenMBPlus 10 = true :=
  ⟨(C4_strict_threshold exFsTenMB 10).1 rfl,
   (C4_strict_threshold exFsTenMBPlus 10).2.1 rfl rfl⟩

/-- C2 counterexample: on a large file whose bytes fail to decode, the
default policy (first 1000 lines) reaches the decode failure and `read_file`
raises `UnicodeDecodeError` instead of returning the sentinel — the claim
that decode failures in the large-file branches are converted to the
sentinel is false. -/
theorem C2_large_decode_error_propagates :
    read_file defaultConfig exFsBigBad false = .error .unicodeDecodeError
    ∧ (Except.error PyError.unicodeDecodeError
        ≠ (Except.ok "Not a text file" : Except PyError String)) :=
  ⟨rfl, by simp⟩

/-- C2 (amended): only the final non-large read is wrapped in
`except UnicodeDecodeError` — there a decode failure yields the sentinel
`"Not a text file"` while a missing file or a permission failure propagates —
whereas in the large-file branches nothing is caught: in the first-N-lines
branch a `UnicodeDecodeError` propagates whenever the undecodable bytes lie
within the lines actually read, in the line-by-line (`None`) branch it
always propagates, and in both of those branches a permission failure on
opening propagates as well. -/
theorem C2_sentinel_only_in_nonlarge_path :
    ∀ (cfg : Config) (f : FSFile) (line_by_line : Bool),
      (file_is_large f cfg.largeSizeFile = false →
        ((f.present = true → f.readable = true → f.badTail = true →
            read_file cfg f line_by_line = .ok "Not a text file")
          ∧ (f.present = false →
              read_file cfg f line_by_line = .error .fileNotFound)
          ∧ (f.present = true → f.readable = false →
              read_file cfg f line_by_line = .error .permissionError)))
      ∧ (file_is_large f cfg.largeSizeFile = true →
        ((∀ n : Int, cfg.maxLinesForLargeFile = .pyInt n → 0 < n →
            f.readable = true → f.badTail = true →
            f.lines.length < n.toNat →
            read_file cfg f line_by_line = .error .unicodeDecodeError)
          ∧ (cfg.maxLinesForLargeFile = .pyNone → f.readable = true →
              f.badTail = true →
              read_file cfg f line_by_line = .error .unicodeDecodeError)
          ∧ (∀ n : Int, cfg.maxLinesForLargeFile = .pyInt n → 0 < n →
              f.readable = false →
              read_file cfg f line_by_line = .error .permissionError)
          ∧ (cfg.maxLinesForLargeFile = .pyNone → f.readable = false →
              read_file cfg f line_by_line = .error .permissionError))) := by
  intro cfg f lbl
  constructor
  · intro hnl
    refine ⟨?_, ?_, ?_⟩
    · intro hp hr hbt
      cases lbl <;>
        simp [read_file, hnl, read_line_by_line, read_all, openCheck,
          hp, hr, hbt]
    · intro hp
      cases lbl <;>
        simp [read_file, hnl, read_line_by_line, read_all, openCheck, hp]
    · intro hp hr
      cases lbl <;>
        simp [read_file, hnl, read_line_by_line, read_all, openCheck, hp, hr]
  · intro hl
    have hp : f.present = true := by
      have hc := hl
      simp only [file_is_large, Bool.and_eq_true] at hc
      exact hc.1
    refine ⟨?_, ?_, ?_, ?_⟩
    · intro n hm hn hr hbt hlen
      have hne : ¬(n = 0) := by omega
      simp [read_file, hl, hm, hne, hn, read_n_lines_from_file, openCheck,
        hp, hr, hbt, hlen]
    · intro hm hr hbt
      simp [read_file, hl, hm, read_line_by_line, openCheck, hp, hr, hbt]
    · intro n hm hn hrd
      have hne : ¬(n = 0) := by omega
      simp [read_file, hl, hm, hne, hn, read_n_lines_from_file, openCheck,
        hp, hrd]
    · intro hm hrd
      simp [read_file, hl, hm, read_line_by_line, openCheck, hp, hrd]

/-- C2 witness: a small undecodable file yields the sentinel; a 12 MB
undecodable file raises `UnicodeDecodeError` under the default first-1000
policy and under the `None` policy; a 12 MB unreadable file raises
`PermissionError` under both. -/
theorem C2_sentinel_only_in_nonlarge_path_witness :
    read_file defaultConfig exFsBinary false = .ok "Not a text file"
    ∧ read_file defaultConfig exFsBigBad false = .error .unicodeDecodeError
    ∧ read_file cfgNone exFsBigBad false = .error .unicodeDecodeError
    ∧ read_file defaultConfig exFsBigNoRead false = .error .permissionError
    ∧ read_file cfgNone exFsBigNoRead false = .error .permissionError := by
  refine ⟨?_, ?_, ?_, ?_, ?_⟩
  · exact ((C2_sentinel_only_in_nonlarge_path defaultConfig exFsBinary
      false).1 rfl).1 rfl rfl rfl
  · exact ((C2_sentinel_only_in_nonlarge_path defaultConfig exFsBigBad
      false).2 rfl).1 1000 rfl (by decide) rfl rfl (by decide)
  · exact ((C2_sentinel_only_in_nonlarge_path cfgNone exFsBigBad
      false).2 rfl).2.1 rfl rfl rfl
  · exact ((C2_sentinel_only_in_nonlarge_path defaultConfig exFsBigNoRead
      false).2 rfl).2.2.1 1000 rfl (by decide) rfl
  · exact ((C2_sentinel_only_in_nonlarge_path cfgNone exFsBigNoRead
      false).2 rfl).2.2.2 rfl rfl

/-- C5: for a large file, the max-lines policy `0` yields the fixed
placeholder and none of the content, a positive `n` yields the first `n`
lines (each `strip()`ed) plus the only-`n`-lines footer, and `None` yields
the whole file line by line. -/
theorem C5_large_file_policies :
    ∀ (cfg : Config) (f : FSFile) (line_by_line : Bool),
      file_is_large f cfg.largeSizeFile = true →
      f.present = true → f.readable = true →
      ((cfg.maxLinesForLargeFile = .pyInt 0 →
          read_file cfg f line_by_line = .ok "The file could not be read.\n")
        ∧ (∀ n : Int, cfg.maxLinesForLargeFile = .pyInt n → 0 < n →
            f.badTail = false →
            read_file cfg f line_by_line = .ok
              (String.intercalate "\n" ((f.lines.take n.toNat).map pyStrip) ++
                "\n...\nThere are only " ++ toString n.toNat ++
                " lines of the file."))
        ∧ (cfg.maxLinesForLargeFile = .pyNone → f.badTail = false →
            read_file cfg f line_by_line = .ok
              (String.intercalate "\n" (f.lines.map pyStrip)))) := by
  intro cfg f lbl hl hp hr
  refine ⟨?_, ?_, ?_⟩
  · intro hm
    simp [read_file, hl, hm]
  · intro n hm hn hbt
    have hne : ¬(n = 0) := by omega
    simp [read_file, hl, hm, hne, hn, read_n_lines_from_file, openCheck,
      hp, hr, hbt]
  · intro hm hbt
    simp [read_file, hl, hm, read_line_by_line, openCheck, hp, hr, hbt]

/-- C5 witness: a 20 MB three-line file under the three policies. -/
theorem C5_large_file_policies_witness :
    read_file cfgZero exFsLargeText false = .ok "The file could not be read.\n"
    ∧ read_file cfgTwo exFsLargeText false =
        .ok "a\nb\n...\nThere are only 2 lines of the file."
    ∧ read_file cfgNone exFsLargeText false = .ok "a\nb\nc" := by
  refine ⟨?_, ?_, ?_⟩
  · exact (C5_large_file_policies cfgZero exFsLargeText false rfl rfl rfl).1 rfl
  · exact (C5_large_file_policies cfgTwo exFsLargeText false rfl rfl rfl).2.1
      2 rfl (by decide) rfl
  · exact (C5_large_file_policies cfgNone exFsLargeText false rfl rfl rfl).2.2
      rfl rfl

/-- C6 counterexample: in line-by-line mode the line `"  x "` comes back as
`"x"` — leading whitespace is removed too, so the result differs from the
`"  x"` that a trailing-only strip would give. -/
theorem C6_leading_whitespace_counterexample :
    read_file defaultConfig exFsIndent true = .ok "x"
    ∧ ("x" : String) ≠ "  x" :=
  ⟨rfl, by decide⟩

/-- C6 (amended): the line-by-line mode strips each line with Python's
two-sided `strip()` — leading as well as trailing whitespace is removed —
and rejoins the lines with newlines. -/
theorem C6_line_mode_strips_both_sides :
    ∀ (cfg : Config) (f : FSFile),
      file_is_large f cfg.largeSizeFile = false →
      f.present = true → f.readable = true → f.badTail = false →
      read_file cfg f true =
        .ok (String.intercalate "\n" (f.lines.map pyStrip)) := by
  intro cfg f hnl hp hr hbt
  simp [read_file, hnl, read_line_by_line, openCheck, hp, hr, hbt]

/-- C6 witness: the single line `"  x "` is stripped on both sides. -/
theorem C6_line_mode_strips_both_sides_witness :
    read_file defaultConfig exFsIndent true = .ok "x" :=
  C6_line_mode_strips_both_sides defaultConfig exFsIndent rfl rfl rfl rfl

/-- C1 counterexample: in a tar archive of three members whose second
member raises on extraction, the output keeps the first member's section,
then the top-level error line, and nothing else: no `[Unreadable file]`
marker is emitted for the failing member and the third member `m3` is never
rendered — a single entry's failure does abort the rest of a tar archive. -/
theorem C1_tar_aborts_counterexample :
    (read_archive defaultConfig exTarBad).1 =
      "## Archive content of x.tar (tar)\n\n## x.tar → m1\nhello\n\n[Error reading archive: boom]"
    ∧ pyIn "[Unreadable file]" (read_archive defaultConfig exTarBad).1 = false
    ∧ pyIn "m3" (read_archive defaultConfig exTarBad).1 = false := by
  refine ⟨rfl, ?_, ?_⟩ <;> decide

/-- C1 (amended): only zip archives have per-entry recovery — a failing zip
entry yields its label followed by `[Unreadable file]` and every entry still
contributes its part to the output — while in a tar archive a failing
member (anywhere in the member list) aborts the remaining members, landing
in the top-level `[Error reading archive: ...]` handler: the output is the
header, then exactly the parts emitted for the members before the failure,
then the error line, with the members after the failure never rendered. -/
theorem C1_zip_only_per_entry_recovery :
    (∀ (cfg : Config) (f : PFile) (entries : List ZipEntry),
      f.isZip = true → f.zipEntries = .ok entries →
      (read_archive cfg f).1 = String.intercalate "\n"
        (archiveHeader f.path "zip" ::
          entries.map (fun e => (zipEntryPart cfg f.path e).1))
      ∧ ∀ e ∈ entries, ∀ msg, e.extract = .error msg →
          (zipEntryPart cfg f.path e).1 = unreadablePart f.path e.name)
    ∧ (∀ (cfg : Config) (f : PFile) (pre : List TarMember) (m : TarMember)
        (rest : List TarMember) (msg : String),
      f.isZip = false → f.isTar = true →
      f.tarMembers = .ok (pre ++ m :: rest) →
      (tarRun cfg f.path pre).2.2 = none →
      m.isFile = true → m.extract = some (.error msg) →
      (read_archive cfg f).1 =
        String.intercalate "\n"
          ((archiveHeader f.path "tar" :: (tarRun cfg f.path pre).1) ++
            [archiveErrorLine msg])) := by
  constructor
  · intro cfg f entries hz he
    constructor
    · simp [read_archive, inspect_archive, hz, he, List.map_map,
        Function.comp_def]
    · intro e he' msg hmsg
      simp [zipEntryPart, hmsg]
  · intro cfg f pre m rest msg hz ht htm hpre hf hex
    have hm : tarRun cfg f.path (m :: rest) = ([], [], some msg) := by
      simp [tarRun, hf, hex]
    have happ := tarRun_append cfg f.path pre (m :: rest) hpre
    rw [hm] at happ
    simp only [List.append_nil] at happ
    simp [read_archive, inspect_archive, hz, ht, htm, happ]

/-- C1 witness: a zip archive whose first entry is unreadable and whose
second is fine renders the marker for the first and the content of the
second; a tar archive failing at its second member keeps the first member's
section, appends the error line, and drops the third member. -/
theorem C1_zip_only_per_entry_recovery_witness :
    (read_archive defaultConfig exZipMixed).1 =
      "## Archive content of a.zip (zip)\n\n## a.zip → e1\n[Unreadable file]\n\n\n## a.zip → e2\nhi\n"
    ∧ (read_archive defaultConfig exTarBad).1 =
      "## Archive content of x.tar (tar)\n\n## x.tar → m1\nhello\n\n[Error reading archive: boom]" := by
  constructor
  · have h := (C1_zip_only_per_entry_recovery.1 defaultConfig exZipMixed
      [{ name := "e1", extract := .error "bad CRC" },
       { name := "e2", extract := .ok "hi" }] rfl rfl).1
    exact h.trans rfl
  · have h := C1_zip_only_per_entry_recovery.2 defaultConfig exTarBad
      [{ name := "m1", isFile := true, extract := some (.ok "hello") }]
      { name := "m2", isFile := true, extract := some (.error "boom") }
      [{ name := "m3", isFile := true, extract := some (.ok "world") }]
      "boom" rfl rfl rfl rfl rfl rfl
    exact h.trans rfl

/-- C3: `paths_as_tree` classifies a rendered node as a directory (slash
suffix, directory counter) exactly when it has at least one child and as a
file otherwise; the items of every level are sorted ascending by name (a
lexicographic comparison of the code points) by a permutation of the
level's children; and the example `["a/b.txt", "a/c.txt", "d.txt"]` renders
with `a/` before `d.txt` and the summary `1 directories, 3 files`. -/
theorem C3_paths_as_tree_spec :
    (∀ (recur : String → List (String × PathTree) → List String × Nat × Nat)
        (pref name : String) (sub : PathTree)
        (rest : List (String × PathTree)),
      renderItems recur pref ((name, sub) :: rest) =
        ((pref ++ (if rest.isEmpty then "└── " else "├── ") ++ name ++
            (if sub.children.isEmpty then "" else "/")) ::
          ((recur (pref ++ (if rest.isEmpty then "    " else "│   "))
              (sortByName sub.children)).1 ++
            (renderItems recur pref rest).1),
         (if sub.children.isEmpty then 0 else 1) +
            (recur (pref ++ (if rest.isEmpty then "    " else "│   "))
              (sortByName sub.children)).2.1 +
            (renderItems recur pref rest).2.1,
         (if sub.children.isEmpty then 1 else 0) +
            (recur (pref ++ (if rest.isEmpty then "    " else "│   "))
              (sortByName sub.children)).2.2 +
            (renderItems recur pref rest).2.2))
    ∧ (∀ cs : List (String × PathTree),
        List.Chain' (fun u v : String × PathTree => pyLt v.1 u.1 = false)
          (sortByName cs)
        ∧ List.Perm (sortByName cs) cs)
    ∧ paths_as_tree ["a/b.txt", "a/c.txt", "d.txt"] =
        ". Files that were selected:\n|\n├── a/\n│   ├── b.txt\n│   └── c.txt\n└── d.txt\n\n1 directories, 3 files" := by
  refine ⟨?_, fun cs => ⟨sortByName_chain cs, sortByName_perm cs⟩, rfl⟩
  intro recur pref name sub rest
  cases hc : sub.children.isEmpty <;> simp [renderItems, hc]

/-- C7: a top-level extraction failure of a classified zip archive is
rendered as the header plus an inline `[Error reading archive: <message>]`
line instead of propagating; and whenever every file's block is produced,
the assembled document contains each file's block, so one corrupt archive
never suppresses the other files' content blocks. -/
theorem C7_corrupt_archive_inline_error :
    (∀ (cfg : Config) (f : PFile) (msg : String),
      f.isZip = true → f.zipEntries = .error msg →
      (read_archive cfg f).1 =
        String.intercalate "\n" [archiveHeader f.path "zip",
          archiveErrorLine msg])
    ∧ (∀ (cfg : Config) (files : List PFile) (description : Option String)
        (blocks : List String),
      file_blocks cfg files = .ok blocks →
      make_text_from_files cfg files description = .ok
        ("Project structure\n\n" ++ paths_as_tree (files.map PFile.path) ++
          "\n\n---\n\n" ++ joinStr blocks ++ descriptionPart description)
      ∧ ∀ f ∈ files, ∃ b pre post, file_block cfg f = .ok b ∧
          joinStr blocks = pre ++ b ++ post) := by
  constructor
  · intro cfg f msg hz he
    simp [read_archive, inspect_archive, hz, he]
  · intro cfg files desc blocks h
    exact ⟨by simp [make_text_from_files, h],
      file_blocks_decomp cfg files blocks h⟩

/-- C7 witness: a corrupt zip next to a plain text file — the archive's
section carries the inline error and the document still contains the
corrupt archive's block alongside the other file's. -/
theorem C7_corrupt_archive_inline_error_witness :
    (read_archive defaultConfig exZipCorrupt).1 =
      "## Archive content of c.zip (zip)\n[Error reading archive: Bad zip file]"
    ∧ ∃ b pre post, file_block defaultConfig exZipCorrupt = .ok b ∧
        joinStr ["a.txt\n\n```\nhello\n```\n---\n\n",
          "c.zip\n\n```\n## Archive content of c.zip (zip)\n[Error reading archive: Bad zip file]\n```\n---\n\n"] =
          pre ++ b ++ post := by
  constructor
  · exact (C7_corrupt_archive_inline_error.1 defaultConfig exZipCorrupt
      "Bad zip file" rfl rfl).trans rfl
  · exact (C7_corrupt_archive_inline_error.2 defaultConfig
      [exPfPlain, exZipCorrupt] none
      ["a.txt\n\n```\nhello\n```\n---\n\n",
        "c.zip\n\n```\n## Archive content of c.zip (zip)\n[Error reading archive: Bad zip file]\n```\n---\n\n"]
      rfl).2 exZipCorrupt
      (List.mem_cons_of_mem _ (List.mem_cons_self _ _))

/-- C8: the filter keeps a target exactly when it contains none of the
ignore substrings — containment being plain substring containment, i.e. the
existence of a decomposition `target = pre ++ needle ++ post` of the
character lists — and the example with ignore `"test"` keeps only
`"src/main.go"`. -/
theorem C8_ignore_substring_filter :
    (∀ (ignores targets : List String) (t : String),
      t ∈ ignores_apply ignores targets ↔
        t ∈ targets ∧ ∀ ex ∈ ignores, ¬ ∃ p s, t.data = p ++ ex.data ++ s)
    ∧ ignores_apply ["test"] ["src/test_util.go", "src/main.go"] =
        ["src/main.go"] := by
  constructor
  · intro ignores targets t
    constructor
    · intro h
      have ht := List.mem_of_mem_filter h
      have hcond := List.of_mem_filter h
      refine ⟨ht, fun ex hex hsub => ?_⟩
      have hany : ignores.any (fun ex => pyIn ex t) = true :=
        List.any_eq_true.mpr ⟨ex, hex, (containsSub_iff _ _).mpr hsub⟩
      rw [hany] at hcond
      simp at hcond
    · rintro ⟨ht, hall⟩
      have hno : ignores.any (fun ex => pyIn ex t) = false := by
        cases hany : ignores.any (fun ex => pyIn ex t) with
        | false => rfl
        | true =>
          rcases List.any_eq_true.mp hany with ⟨ex, hex, hpy⟩
          exact absurd ((containsSub_iff _ _).mp hpy) (hall ex hex)
      exact List.mem_filter.mpr ⟨ht, by simp [hno]⟩
  · rfl

/-- C8 witness: `"src/main.go"` survives the filter and indeed contains no
occurrence of `"test"`. -/
theorem C8_ignore_substring_filter_witness :
    "src/main.go" ∈ ignores_apply ["test"] ["src/test_util.go", "src/main.go"]
    ∧ ¬ ∃ p s, "src/main.go".data = p ++ "test".data ++ s := by
  have hm : "src/main.go" ∈
      ignores_apply ["test"] ["src/test_util.go", "src/main.go"] := by
    rw [C8_ignore_substring_filter.2]
    exact List.mem_cons_self _ _
  refine ⟨hm, ?_⟩
  have h := (C8_ignore_substring_filter.1 ["test"]
    ["src/test_util.go", "src/main.go"] "src/main.go").mp hm
  exact h.2 "test" (List.mem_cons_self _ _)

/-- C9 counterexample: reading a zip archive with one readable entry leaves
one temp file on disk (created with `delete=False`, never unlinked), so the
claim that no run-local temp files remain after `read_archive` returns is
false. -/
theorem C9_leftover_temp_counterexample :
    (leftoverTemps (read_archive defaultConfig exZipGood).2).length = 1
    ∧ leftoverTemps (read_archive defaultConfig exZipGood).2 ≠ [] :=
  ⟨rfl, by decide⟩

/-- C9 (amended): every temp file `read_archive` creates is made with
`delete=False` and is never unlinked by the program — cleanup is left
entirely to the operating system's temp-directory maintenance. -/
theorem C9_temps_never_deleted :
    ∀ (cfg : Config) (f : PFile) (t : TempFile),
      t ∈ (read_archive cfg f).2 →
      t.deleteFlag = false ∧ t.unlinked = false := by
  intro cfg f t ht
  unfold read_archive at ht
  cases hi : inspect_archive f with
  | none => rw [hi] at ht; simp at ht
  | some tag =>
    rw [hi] at ht
    simp only at ht
    by_cases hz : tag = "zip"
    · rw [if_pos hz] at ht
      cases hze : f.zipEntries with
      | error msg => rw [hze] at ht; simp at ht
      | ok entries =>
        rw [hze] at ht
        simp only [mem_foldr_append, List.mem_map] at ht
        rcases ht with ⟨x, ⟨e, he, hx⟩, htx⟩
        exact zipEntryPart_temps cfg f.path e t (by rw [hx]; exact htx)
    · rw [if_neg hz] at ht
      by_cases htg : tag = "tar"
      · rw [if_pos htg] at ht
        cases htm : f.tarMembers with
        | error msg => rw [htm] at ht; simp at ht
        | ok members =>
          rw [htm] at ht
          simp only at ht
          rcases h22 : (tarRun cfg f.path members).2.2 with - | msg <;>
            rw [h22] at ht <;>
              exact tarRun_temps cfg f.path members t ht
      · rw [if_neg htg] at ht
        split at ht
        · simp at ht
        · split at ht <;> (simp at ht; simp [ht, mkTempFile])

/-- C9 witness: the temp file holding the extracted entry of the
single-entry zip is among the survivors and carries both flags `false`. -/
theorem C9_temps_never_deleted_witness :
    (mkTempFile "hi").deleteFlag = false ∧ (mkTempFile "hi").unlinked = false :=
  C9_temps_never_deleted defaultConfig exZipGood (mkTempFile "hi") (by decide)

/-- C10: a genuine text file whose entire decoded content is exactly
`"Not a text file"` collides with the sentinel: `read_file` returns that
string, the assembler's equality test fires, and the emitted block is the
substituted one — the archive rendering (or skip marker) when the path
classifies as an archive, the literal placeholder block otherwise — rather
than the verbatim-content branch. -/
theorem C10_sentinel_collision :
    ∀ (cfg : Config) (f : PFile),
      f.fs.present = true → f.fs.readable = true → f.fs.badTail = false →
      f.fs.lines = ["Not a text file"] →
      file_is_large f.fs cfg.largeSizeFile = false →
      read_file cfg f.fs false = .ok "Not a text file"
      ∧ file_block cfg f = .ok (f.path ++ "\n" ++
          (match inspect_archive f with
           | some _ =>
             if cfg.readCompressedFiles then
               "\n```\n" ++ (read_archive cfg f).1 ++ "\n```\n"
             else "`Archive skipped`\n"
           | none => "\n```\nNot a text file\n```\n") ++ "---\n\n") := by
  intro cfg f hp hr hbt hlines hnl
  have hfc : fileContent f.fs = "Not a text file" := by
    unfold fileContent
    rw [hlines]
    rfl
  have h1 : read_file cfg f.fs false = .ok "Not a text file" := by
    simp [read_file, hnl, read_all, openCheck, hp, hr, hbt, hfc]
  refine ⟨h1, ?_⟩
  unfold file_block
  rw [h1]
  simp

/-- C10 witness: a plain text file named `note.gz` whose content is the
sentinel string is routed through the archive fallback (the gz opener then
fails on it, yielding the inline archive error), not emitted as its own
content. -/
theorem C10_sentinel_collision_witness :
    read_file defaultConfig exPfSentinelGz.fs false = .ok "Not a text file"
    ∧ file_block defaultConfig exPfSentinelGz = .ok
        "note.gz\n\n```\n## Archive content of note.gz (gz)\n[Error reading archive: not a gzip stream]\n```\n---\n\n" := by
  have h := C10_sentinel_collision defaultConfig exPfSentinelGz
    rfl rfl rfl rfl rfl
  exact ⟨h.1, h.2.trans rfl⟩

end Dir2Txt
